import Mathlib

/-!
Shallow embedding of the Game-Portal page script (src/script.js): a catalog
loader, a card-list renderer and a tag-filter controller operating on a
shared in-memory list of game records.  DOM containers are modelled as
explicit values threaded through the functions; the fetch is modelled as an
outcome parameter (the spec treats fetch plus parse as a single external
call returning a sequence of records or failing).
-/

namespace GamePortal

/-- A game record as decoded from `games_catalog.json`.  Every field is
optional in the data source; `none` models an absent JSON key
(JS `undefined`). -/
structure GameRecord where
  title : Option String
  description : Option String
  thumbnail : Option String
  link : Option String
  github_url : Option String
  tags : Option (List String)
deriving Repr, DecidableEq

/-- JS `x || d` for a possibly-absent string field: both an absent field
(`undefined`) and the empty string are falsy, any other string is truthy. -/
def jsOr (x : Option String) (d : String) : String :=
  match x with
  | none => d
  | some s => if s = "" then d else s

/-- The inline SVG placeholder data URL built at script.js:45.  The source
applies `encodeURI` to this template literal; the claims use the placeholder
only as an opaque distinguished value, so the URI-escaping of whitespace is
not modelled. -/
def placeholderSvg : String :=
  "data:image/svg+xml;utf8,<svg xmlns='http://www.w3.org/2000/svg' width='800' height='400'><rect width='100%' height='100%' fill='%232c394b'/><text x='50%' y='50%' dominant-baseline='middle' text-anchor='middle' fill='%23b0b0b0' font-family='Segoe UI, Arial' font-size='24'>No image</text></svg>"

/-- The state of one card's `<img>` element: its current `src` and whether
its `onerror` handler is still installed (script.js:65 installs it,
script.js:67 clears it on first firing). -/
structure ImgState where
  src : String
  onerrorSet : Bool
deriving Repr, DecidableEq

/-- One rendered game card (script.js:52-100): the `data-tags` attribute,
the tag badge spans, the image, and the text/link content. -/
structure Card where
  dataTags : String
  tagBadges : List String
  img : ImgState
  imgAlt : String
  titleText : String
  descText : String
  playHref : String
  srcHref : String
deriving Repr, DecidableEq

/-- Body of the `games.forEach` loop in `renderGameList` (script.js:52-100):
projects one record to one card, defaulting each absent field. -/
def renderCard (game : GameRecord) : Card :=
  { dataTags := String.intercalate "," (game.tags.getD [])
    tagBadges := game.tags.getD []
    img := { src := jsOr game.thumbnail placeholderSvg, onerrorSet := true }
    imgAlt := jsOr game.title "Game thumbnail"
    titleText := jsOr game.title "Untitled"
    descText := jsOr game.description ""
    playHref := jsOr game.link "#"
    srcHref := jsOr game.github_url "#" }

/-- The `onerror` callback installed at script.js:65-69: if the handler is
still installed, uninstall it (`this.onerror = null`) and swap the source
for the placeholder; once uninstalled, a further load failure does nothing. -/
def fireError (img : ImgState) : ImgState :=
  if img.onerrorSet then { src := placeholderSvg, onerrorSet := false } else img

/-- One child of the game-list container: either a text message paragraph
or a game card. -/
inductive DisplayItem where
  | message (text : String)
  | card (c : Card)
deriving Repr, DecidableEq

/-- The "no results" paragraph set at script.js:40. -/
def noResultsHtml : String := "No games found matching the selected filter."

/-- The error paragraph set at script.js:28. -/
def errorHtml : String := "Error: Could not load game catalog. Check console for details."

/-- `renderGameList` (script.js:36-102).  Line 37 clears the container
unconditionally, so the previous contents are discarded; an empty input
leaves a single "no results" message, otherwise one card per record in
input order. -/
def renderGameList (games : List GameRecord) (container : List DisplayItem) :
    List DisplayItem :=
  let container : List DisplayItem := []
  if games.length = 0 then
    [DisplayItem.message noResultsHtml]
  else
    container ++ games.map (fun g => DisplayItem.card (renderCard g))

/-- Number of card children currently in a container. -/
def cardCount : List DisplayItem → Nat
  | [] => 0
  | DisplayItem.message _ :: rest => cardCount rest
  | DisplayItem.card _ :: rest => 1 + cardCount rest

/-- One tag-filter button (script.js:117-122): visible label (original
casing), `data-tag` key (lower-cased), and whether it carries the
`active` class. -/
structure FilterButton where
  label : String
  key : String
  active : Bool
deriving Repr, DecidableEq

/-- `Set.add` step for collecting unique tags: a JS `Set` keeps first
insertion order and ignores re-insertion of a present element. -/
def insertUnique (seen : List String) (t : String) : List String :=
  if t ∈ seen then seen else seen ++ [t]

/-- The tag-collection loop of `populateTagFilters` (script.js:112-114):
reads `game.tags` from every record unguarded, so an absent `tags` field
is a TypeError, modelled as `none`. -/
def collectTags : List GameRecord → Option (List String)
  | [] => some []
  | g :: gs => do
    let ts ← g.tags
    let rest ← collectTags gs
    pure (ts ++ rest)

/-- `populateTagFilters` (script.js:108-127): collects the distinct tags of
the catalog into a set, then creates one button per distinct tag, labeled
with the original casing and keyed by the lower-cased form.  `none` models
the unhandled TypeError when some record has no `tags` field (thrown before
any button is created, since collection precedes button creation). -/
def populateTagFilters (games : List GameRecord) : Option (List FilterButton) :=
  (collectTags games).map (fun tags =>
    (tags.foldl insertUnique []).map (fun tag =>
      { label := tag, key := tag.toLower, active := false }))

/-- The `allGamesData.filter(...)` call at script.js:150-152: the predicate
reads `game.tags` unguarded, so any record without a `tags` field makes the
whole filter throw (modelled as `none`). -/
def filterGames : List GameRecord → String → Option (List GameRecord)
  | [], _ => some []
  | g :: gs, key => do
    let ts ← g.tags
    let rest ← filterGames gs key
    pure (if (ts.map String.toLower).contains key then g :: rest else rest)

/-- The filter logic of `handleTagFilterClick` (script.js:146-153): the
`"all"` key returns the full catalog, any other key filters it. -/
def computeSubset (catalog : List GameRecord) (selectedTag : String) :
    Option (List GameRecord) :=
  if selectedTag = "all" then some catalog else filterGames catalog selectedTag

/-- The target of a click event reaching the delegated handler: either the
i-th filter button in the container, or some other element (which fails the
`classList.contains` check at script.js:134). -/
inductive ClickTarget where
  | filterButton (i : Nat)
  | other
deriving Repr, DecidableEq

/-- The page state the script manipulates: the module-level `allGamesData`
variable, the game-list container and the filter-button container. -/
structure AppState where
  allGamesData : List GameRecord
  gameList : List DisplayItem
  filterButtons : List FilterButton
deriving Repr, DecidableEq

/-- Script.js:140: remove the `active` class from every filter button. -/
def deactivateAll (btns : List FilterButton) : List FilterButton :=
  btns.map (fun b => { b with active := false })

/-- Script.js:143: add the `active` class to the i-th button. -/
def activateAt : List FilterButton → Nat → List FilterButton
  | [], _ => []
  | b :: bs, 0 => { b with active := true } :: bs
  | b :: bs, n + 1 => b :: activateAt bs n

/-- Number of buttons currently carrying the `active` class. -/
def countActive : List FilterButton → Nat
  | [] => 0
  | b :: bs => (if b.active then 1 else 0) + countActive bs

/-- `handleTagFilterClick` (script.js:133-156).  A click not on a filter
button returns early.  Otherwise all buttons are deactivated and the
clicked one activated, then the subset is recomputed from `allGamesData`
and the clicked key and rendered; if the filter throws (a record without
`tags`), the marking has already happened but the render is skipped, the
exception propagating out of the handler. -/
def handleTagFilterClick (st : AppState) (target : ClickTarget) : AppState :=
  match target with
  | ClickTarget.other => st
  | ClickTarget.filterButton i =>
    match st.filterButtons.get? i with
    | none => st
    | some btn =>
      let btns := activateAt (deactivateAll st.filterButtons) i
      match computeSubset st.allGamesData btn.key with
      | some filteredGames =>
        { st with filterButtons := btns
                  gameList := renderGameList filteredGames st.gameList }
      | none => { st with filterButtons := btns }

/-- A sequence of click events handled in arrival order. -/
def applyClicks (st : AppState) (clicks : List ClickTarget) : AppState :=
  clicks.foldl handleTagFilterClick st

/-- Outcome of the external fetch-and-parse step of `loadGameCatalog`.
The spec treats fetch plus parse as one external call that either yields a
sequence of records or fails: `httpError` is a resolved response with
`ok = false` (script.js:14), `parseFailure` a body that does not parse as a
record sequence (script.js:17), `parsed` a successful decode. -/
inductive FetchOutcome where
  | httpError (statusText : String)
  | parseFailure
  | parsed (games : List GameRecord)
deriving Repr

/-- `loadGameCatalog` (script.js:11-30).  On an error outcome the thrown
`Error` is caught and the game-list container replaced by the single error
paragraph, `allGamesData` never having been assigned.  On a successful
parse, `allGamesData` is set, the list rendered and the filter buttons
created; if `populateTagFilters` throws (a record without `tags`), the
catch block replaces the list with the error paragraph, but `allGamesData`
has already been assigned and no button was created. -/
def loadGameCatalog (outcome : FetchOutcome) (st : AppState) : AppState :=
  match outcome with
  | FetchOutcome.httpError _ => { st with gameList := [DisplayItem.message errorHtml] }
  | FetchOutcome.parseFailure => { st with gameList := [DisplayItem.message errorHtml] }
  | FetchOutcome.parsed games =>
    match populateTagFilters games with
    | some btns =>
      { st with allGamesData := games
                gameList := renderGameList games st.gameList
                filterButtons := st.filterButtons ++ btns }
    | none =>
      { st with allGamesData := games
                gameList := [DisplayItem.message errorHtml] }

/-- A record bearing only the single tag "All" (all other fields absent). -/
def gAll : GameRecord := ⟨none, none, none, none, none, some ["All"]⟩

/-- A record bearing only the single tag "x". -/
def gX : GameRecord := ⟨none, none, none, none, none, some ["x"]⟩

/-- A record with every field absent, in particular no `tags` field. -/
def gNil : GameRecord := ⟨none, none, none, none, none, none⟩

/-- A two-record catalog in which the tag "All" appears but is not carried
by every record. -/
def cexCatalog : List GameRecord := [gAll, gX]

/-- The example record of spec §8.5: title "Snake", two tags, everything
else absent. -/
def snakeRecord : GameRecord :=
  ⟨some "Snake", none, none, none, none, some ["arcade", "classic"]⟩

/-- The page state at startup: no catalog, empty containers. -/
def initialState : AppState := ⟨[], [], []⟩

/-- A one-button page state used to exercise the click handler. -/
def oneButtonState : AppState :=
  { allGamesData := [snakeRecord]
    gameList := []
    filterButtons := [⟨"arcade", "arcade", false⟩] }

/-! ## Helper lemmas -/

/-- `String.toLower` as a pointwise map over the character list, so that
closed instances evaluate in the kernel. -/
theorem toLower_fun : String.toLower = fun s => String.mk (s.data.map Char.toLower) :=
  funext fun s => String.map_eq Char.toLower s

theorem collectTags_eq_none {games : List GameRecord} {g : GameRecord}
    (hg : g ∈ games) (ht : g.tags = none) : collectTags games = none := by
  induction games with
  | nil => cases hg
  | cons a gs ih =>
    rcases List.mem_cons.1 hg with rfl | hgs
    · simp [collectTags, ht]
    · cases ha : a.tags with
      | none => simp [collectTags, ha]
      | some ts => simp [collectTags, ha, ih hgs]

theorem collectTags_eq_some {games : List GameRecord}
    (h : ∀ g ∈ games, g.tags ≠ none) :
    ∃ ts, collectTags games = some ts ∧
      ∀ t, (t ∈ ts ↔ ∃ g ∈ games, ∃ l, g.tags = some l ∧ t ∈ l) := by
  induction games with
  | nil => exact ⟨[], rfl, by simp⟩
  | cons a gs ih =>
    obtain ⟨ts, hts, hmem⟩ := ih (fun g hg => h g (List.mem_cons_of_mem _ hg))
    cases ha : a.tags with
    | none => exact absurd ha (h a (List.mem_cons_self _ _))
    | some la =>
      refine ⟨la ++ ts, by simp [collectTags, ha, hts], ?_⟩
      intro t
      constructor
      · intro htl
        rcases List.mem_append.1 htl with h1 | h2
        · exact ⟨a, List.mem_cons_self _ _, la, ha, h1⟩
        · obtain ⟨g, hg, l, hl, hm⟩ := (hmem t).1 h2
          exact ⟨g, List.mem_cons_of_mem _ hg, l, hl, hm⟩
      · rintro ⟨g, hg, l, hl, hm⟩
        rcases List.mem_cons.1 hg with rfl | hgs
        · rw [ha] at hl
          obtain rfl : la = l := by injection hl
          exact List.mem_append.2 (Or.inl hm)
        · exact List.mem_append.2 (Or.inr ((hmem t).2 ⟨g, hgs, l, hl, hm⟩))

theorem mem_foldl_insertUnique (l : List String) :
    ∀ (acc : List String) (x : String),
      x ∈ l.foldl insertUnique acc ↔ x ∈ acc ∨ x ∈ l := by
  induction l with
  | nil => simp
  | cons a as ih =>
    intro acc x
    rw [List.foldl_cons, ih]
    unfold insertUnique
    by_cases ha : a ∈ acc
    · simp only [if_pos ha, List.mem_cons]
      constructor
      · rintro (h | h)
        · exact Or.inl h
        · exact Or.inr (Or.inr h)
      · rintro (h | rfl | h)
        · exact Or.inl h
        · exact Or.inl ha
        · exact Or.inr h
    · simp only [if_neg ha, List.mem_append, List.mem_singleton, List.mem_cons]
      tauto

theorem nodup_foldl_insertUnique (l : List String) :
    ∀ acc : List String, acc.Nodup → (l.foldl insertUnique acc).Nodup := by
  induction l with
  | nil => intro acc h; exact h
  | cons a as ih =>
    intro acc h
    rw [List.foldl_cons]
    refine ih _ ?_
    unfold insertUnique
    by_cases ha : a ∈ acc
    · simpa [ha] using h
    · rw [if_neg ha]
      simp only [List.nodup_append, List.nodup_singleton, true_and, h]
      intro x hx hxa
      rcases List.mem_singleton.1 hxa with rfl
      exact ha hx

theorem filterGames_eq_none {catalog : List GameRecord} {g : GameRecord}
    (hg : g ∈ catalog) (ht : g.tags = none) (key : String) :
    filterGames catalog key = none := by
  induction catalog with
  | nil => cases hg
  | cons a gs ih =>
    rcases List.mem_cons.1 hg with rfl | hgs
    · simp [filterGames, ht]
    · cases ha : a.tags with
      | none => simp [filterGames, ha]
      | some ts => simp [filterGames, ha, ih hgs]

theorem filterGames_eq_filter {catalog : List GameRecord}
    (h : ∀ g ∈ catalog, g.tags ≠ none) (key : String) :
    filterGames catalog key =
      some (catalog.filter fun g =>
        ((g.tags.getD []).map String.toLower).contains key) := by
  induction catalog with
  | nil => rfl
  | cons a gs ih =>
    cases ha : a.tags with
    | none => exact absurd ha (h a (List.mem_cons_self _ _))
    | some ts =>
      have hrest := ih (fun g hg => h g (List.mem_cons_of_mem _ hg))
      by_cases hc : ((ts.map String.toLower).contains key : Bool) <;>
        simp [filterGames, ha, hrest, List.filter_cons, hc]

theorem countActive_deactivateAll (l : List FilterButton) :
    countActive (deactivateAll l) = 0 := by
  induction l with
  | nil => rfl
  | cons b bs ih => simpa [deactivateAll, countActive] using ih

theorem length_deactivateAll (l : List FilterButton) :
    (deactivateAll l).length = l.length := by
  simp [deactivateAll]

theorem countActive_activateAt_of_zero (l : List FilterButton) :
    ∀ i, countActive l = 0 → i < l.length → countActive (activateAt l i) = 1 := by
  induction l with
  | nil => intro i _ hi; simp at hi
  | cons b bs ih =>
    intro i h0 hi
    cases hb : b.active with
    | true => simp [countActive, hb] at h0
    | false =>
      have hbs : countActive bs = 0 := by simpa [countActive, hb] using h0
      cases i with
      | zero => simp [activateAt, countActive, hbs]
      | succ n =>
        have hn : n < bs.length := Nat.lt_of_succ_lt_succ (by simpa using hi)
        simp [activateAt, countActive, hb, ih n hbs hn]

theorem get?_some_lt_length {l : List FilterButton} {i : Nat} {b : FilterButton}
    (h : l.get? i = some b) : i < l.length := by
  by_contra hle
  rw [List.get?_eq_none.2 (Nat.le_of_not_lt hle)] at h
  cases h

theorem countActive_marked (st : AppState) {i : Nat} {btn : FilterButton}
    (hbtn : st.filterButtons.get? i = some btn) :
    countActive (activateAt (deactivateAll st.filterButtons) i) = 1 := by
  apply countActive_activateAt_of_zero
  · exact countActive_deactivateAll _
  · rw [length_deactivateAll]
    exact get?_some_lt_length hbtn

theorem countActive_handleClick_le (st : AppState) (t : ClickTarget)
    (h : countActive st.filterButtons ≤ 1) :
    countActive (handleTagFilterClick st t).filterButtons ≤ 1 := by
  cases t with
  | other => exact h
  | filterButton i =>
    cases hbtn : st.filterButtons.get? i with
    | none =>
      rw [List.get?_eq_getElem?] at hbtn
      simpa [handleTagFilterClick, hbtn] using h
    | some btn =>
      have hone := countActive_marked st hbtn
      rw [List.get?_eq_getElem?] at hbtn
      cases hcs : computeSubset st.allGamesData btn.key <;>
        simp [handleTagFilterClick, hbtn, hcs, hone]

theorem countActive_applyClicks_le (clicks : List ClickTarget) :
    ∀ st : AppState, countActive st.filterButtons ≤ 1 →
      countActive (applyClicks st clicks).filterButtons ≤ 1 := by
  induction clicks with
  | nil => intro st h; exact h
  | cons c cs ih =>
    intro st h
    exact ih _ (countActive_handleClick_le st c h)

theorem map_label_mkButton (us : List String) :
    (us.map (fun tag =>
      ({ label := tag, key := tag.toLower, active := false } : FilterButton))).map
        FilterButton.label = us := by
  induction us with
  | nil => rfl
  | cons u rest ih => simp [ih]

theorem cardCount_map_card (cs : List Card) :
    cardCount (cs.map DisplayItem.card) = cs.length := by
  induction cs with
  | nil => rfl
  | cons c rest ih => simp [cardCount, ih, Nat.add_comm]

/-! ## Claim theorems -/

/-- C4: every missing optional field of a rendered record is silently
defaulted: absent title renders as "Untitled", absent description as empty
text, absent thumbnail as the placeholder image, absent link and github_url
as the inert "#" target, and absent or empty tags as zero badges; the
concrete record with title "Snake", tags ["arcade", "classic"] and
everything else absent yields title "Snake", the placeholder image, exactly
the two badges and a play control pointing at "#". -/
theorem renderCard_defaults_optional_fields :
    (∀ g : GameRecord,
      (g.title = none → (renderCard g).titleText = "Untitled") ∧
      (g.description = none → (renderCard g).descText = "") ∧
      (g.thumbnail = none → (renderCard g).img.src = placeholderSvg) ∧
      (g.link = none → (renderCard g).playHref = "#") ∧
      (g.github_url = none → (renderCard g).srcHref = "#") ∧
      (g.tags = none → (renderCard g).tagBadges = [])) ∧
    (renderCard snakeRecord).titleText = "Snake" ∧
    (renderCard snakeRecord).img.src = placeholderSvg ∧
    (renderCard snakeRecord).tagBadges = ["arcade", "classic"] ∧
    (renderCard snakeRecord).playHref = "#" := by
  refine ⟨fun g => ⟨?_, ?_, ?_, ?_, ?_, ?_⟩, ?_, ?_, ?_, ?_⟩ <;>
    first
      | (intro h; simp [renderCard, jsOr, h])
      | rfl

/-- C4 witness: the theorem applied to the all-absent record evaluates each
defaulted field. -/
theorem renderCard_defaults_optional_fields_witness :
    (renderCard gNil).titleText = "Untitled" ∧
    (renderCard gNil).descText = "" ∧
    (renderCard gNil).img.src = placeholderSvg ∧
    (renderCard gNil).playHref = "#" ∧
    (renderCard gNil).srcHref = "#" ∧
    (renderCard gNil).tagBadges = [] :=
  ⟨(renderCard_defaults_optional_fields.1 gNil).1 rfl,
   (renderCard_defaults_optional_fields.1 gNil).2.1 rfl,
   (renderCard_defaults_optional_fields.1 gNil).2.2.1 rfl,
   (renderCard_defaults_optional_fields.1 gNil).2.2.2.1 rfl,
   (renderCard_defaults_optional_fields.1 gNil).2.2.2.2.1 rfl,
   (renderCard_defaults_optional_fields.1 gNil).2.2.2.2.2 rfl⟩

/-- C5: the renderer discards the previous container contents
unconditionally (its result is independent of them), and rendering the
empty sequence leaves exactly the single "no results" message and zero
cards; hence rendering any subset and then the empty sequence leaves
exactly that message. -/
theorem renderList_empty_after_any_shows_noResults :
    (∀ (S : List GameRecord) (prev : List DisplayItem),
      renderGameList [] (renderGameList S prev) = [DisplayItem.message noResultsHtml] ∧
      cardCount (renderGameList [] (renderGameList S prev)) = 0) ∧
    (∀ (games : List GameRecord) (p q : List DisplayItem),
      renderGameList games p = renderGameList games q) := by
  exact ⟨fun S prev => ⟨rfl, rfl⟩, fun games p q => rfl⟩

/-- C7: the image load-failure callback is idempotent — on any image state
a second firing changes nothing — and on any freshly rendered card, whose
handler is installed, the first failure swaps the source for the
placeholder and uninstalls the handler, so a failure of the placeholder
itself performs no further swap. -/
theorem imgError_idempotent_single_swap :
    (∀ img : ImgState, fireError (fireError img) = fireError img) ∧
    (∀ g : GameRecord,
      (renderCard g).img.onerrorSet = true ∧
      (fireError ((renderCard g).img)).src = placeholderSvg ∧
      (fireError ((renderCard g).img)).onerrorSet = false ∧
      fireError (fireError ((renderCard g).img)) = fireError ((renderCard g).img)) := by
  constructor
  · intro img
    cases h : img.onerrorSet <;> simp [fireError, h]
  · intro g
    simp [renderCard, fireError]

/-- C3: for a catalog containing a record with no `tags` field, the filter
setup faults (models the unguarded `game.tags.forEach` TypeError), while
the renderer tolerates the same input, producing one card per record. -/
theorem populateTagFilters_faults_on_missing_tags
    (games : List GameRecord) (g : GameRecord) (prev : List DisplayItem)
    (hg : g ∈ games) (ht : g.tags = none) :
    populateTagFilters games = none ∧
    renderGameList games prev =
      games.map (fun x => DisplayItem.card (renderCard x)) ∧
    cardCount (renderGameList games prev) = games.length := by
  have hne : games.length ≠ 0 := by
    cases games with
    | nil => cases hg
    | cons a gs => simp
  refine ⟨?_, ?_, ?_⟩
  · simp [populateTagFilters, collectTags_eq_none hg ht]
  · simp [renderGameList, hne]
  · rw [renderGameList, if_neg hne]
    have : games.map (fun x => DisplayItem.card (renderCard x)) =
        (games.map renderCard).map DisplayItem.card := by
      simp [List.map_map]
    simp only [List.nil_append, this, cardCount_map_card, List.length_map]

/-- C3 witness: a one-record catalog whose record has no `tags` field. -/
theorem populateTagFilters_faults_on_missing_tags_witness :
    populateTagFilters [gNil] = none ∧
    renderGameList [gNil] [] = [DisplayItem.card (renderCard gNil)] ∧
    cardCount (renderGameList [gNil] []) = 1 :=
  populateTagFilters_faults_on_missing_tags [gNil] gNil []
    (List.mem_singleton.2 rfl) rfl

/-- C9: on a catalog containing a record with no `tags` field, activating
any key other than "all" faults while computing the subset (the filter
predicate reads `tags` unguarded), while the "all" key avoids the fault and
returns the full catalog. -/
theorem filter_activation_faults_on_missing_tags
    (catalog : List GameRecord) (g : GameRecord) (key : String)
    (hg : g ∈ catalog) (ht : g.tags = none) (hk : key ≠ "all") :
    computeSubset catalog key = none ∧
    computeSubset catalog "all" = some catalog := by
  constructor
  · rw [computeSubset, if_neg hk]
    exact filterGames_eq_none hg ht key
  · simp [computeSubset]

/-- C9 witness: the one-record tagless catalog with the key "x". -/
theorem filter_activation_faults_on_missing_tags_witness :
    computeSubset [gNil] "x" = none ∧
    computeSubset [gNil] "all" = some [gNil] :=
  filter_activation_faults_on_missing_tags [gNil] gNil "x"
    (List.mem_singleton.2 rfl) rfl (by decide)

/-- C2: when the fetch resolves with a non-success status or the body
fails to parse as a record sequence, the load leaves exactly one visible
error message and zero cards, `allGamesData` stays unset (empty), and any
subsequent filter activation computes over the empty set. -/
theorem loadError_single_error_no_cards (st : AppState)
    (h : st.allGamesData = []) (statusText : String) :
    ((loadGameCatalog (FetchOutcome.httpError statusText) st).gameList =
        [DisplayItem.message errorHtml] ∧
      cardCount (loadGameCatalog (FetchOutcome.httpError statusText) st).gameList = 0 ∧
      (loadGameCatalog (FetchOutcome.httpError statusText) st).allGamesData = [] ∧
      ∀ key, computeSubset
        (loadGameCatalog (FetchOutcome.httpError statusText) st).allGamesData key =
        some []) ∧
    ((loadGameCatalog FetchOutcome.parseFailure st).gameList =
        [DisplayItem.message errorHtml] ∧
      cardCount (loadGameCatalog FetchOutcome.parseFailure st).gameList = 0 ∧
      (loadGameCatalog FetchOutcome.parseFailure st).allGamesData = [] ∧
      ∀ key, computeSubset
        (loadGameCatalog FetchOutcome.parseFailure st).allGamesData key =
        some []) := by
  have hsub : ∀ key : String, computeSubset [] key = some [] := by
    intro key
    by_cases hk : key = "all" <;> simp [computeSubset, filterGames, hk]
  refine ⟨⟨rfl, rfl, h, fun key => ?_⟩, ⟨rfl, rfl, h, fun key => ?_⟩⟩
  · show computeSubset st.allGamesData key = some []
    rw [h]; exact hsub key
  · show computeSubset st.allGamesData key = some []
    rw [h]; exact hsub key

/-- C2 witness: the initial page state with a 404 status text. -/
theorem loadError_single_error_no_cards_witness :
    (loadGameCatalog (FetchOutcome.httpError "Not Found") initialState).gameList =
      [DisplayItem.message errorHtml] ∧
    (loadGameCatalog FetchOutcome.parseFailure initialState).allGamesData = [] :=
  ⟨(loadError_single_error_no_cards initialState rfl "Not Found").1.1,
   (loadError_single_error_no_cards initialState rfl "Not Found").2.2.2.1⟩

/-- C6: activations not from a recognized filter control change nothing;
a recognized activation deactivates all controls and marks exactly the
clicked one, so after any sequence of activations starting from a state
with at most one active control (in particular the freshly built, all
inactive, button list) at most one control is marked active. -/
theorem at_most_one_active_filter (st : AppState) (clicks : List ClickTarget)
    (h : countActive st.filterButtons ≤ 1) :
    countActive (applyClicks st clicks).filterButtons ≤ 1 ∧
    (∀ s : AppState, handleTagFilterClick s ClickTarget.other = s) ∧
    (∀ (s : AppState) (i : Nat) (btn : FilterButton),
      s.filterButtons.get? i = some btn →
      (handleTagFilterClick s (ClickTarget.filterButton i)).filterButtons =
        activateAt (deactivateAll s.filterButtons) i ∧
      countActive
        (handleTagFilterClick s (ClickTarget.filterButton i)).filterButtons = 1) := by
  refine ⟨countActive_applyClicks_le clicks st h, fun s => rfl, ?_⟩
  intro s i btn hbtn
  have hone := countActive_marked s hbtn
  rw [List.get?_eq_getElem?] at hbtn
  cases hcs : computeSubset s.allGamesData btn.key <;>
    simp [handleTagFilterClick, hbtn, hcs, hone]

/-- C6 witness: a one-button state clicked twice, then a stray click. -/
theorem at_most_one_active_filter_witness :
    countActive (applyClicks oneButtonState
      [ClickTarget.filterButton 0, ClickTarget.other,
       ClickTarget.filterButton 0]).filterButtons ≤ 1 :=
  (at_most_one_active_filter oneButtonState
    [ClickTarget.filterButton 0, ClickTarget.other, ClickTarget.filterButton 0]
    (by decide)).1

/-- C8: on a catalog in which every record has a `tags` sequence, the
filter setup creates exactly one control per distinct tag string
(case-sensitive distinctness, as the underlying set of raw strings): the
labels are pairwise distinct, a label occurs iff it occurs as a tag of some
record, and every control is keyed by the lower-cased form of its label and
is created inactive. -/
theorem one_button_per_distinct_tag (games : List GameRecord)
    (h : ∀ g ∈ games, g.tags ≠ none) :
    ∃ bs, populateTagFilters games = some bs ∧
      (bs.map FilterButton.label).Nodup ∧
      (∀ t, t ∈ bs.map FilterButton.label ↔
        ∃ g ∈ games, ∃ l, g.tags = some l ∧ t ∈ l) ∧
      ∀ b ∈ bs, b.key = b.label.toLower ∧ b.active = false := by
  obtain ⟨ts, hts, hmem⟩ := collectTags_eq_some h
  refine ⟨(ts.foldl insertUnique []).map
    (fun tag => ⟨tag, tag.toLower, false⟩), ?_, ?_, ?_, ?_⟩
  · simp [populateTagFilters, hts]
  · rw [map_label_mkButton]
    exact nodup_foldl_insertUnique ts [] List.nodup_nil
  · intro t
    rw [map_label_mkButton, mem_foldl_insertUnique]
    simp [hmem t]
  · intro b hb
    obtain ⟨tag, _, rfl⟩ := List.mem_map.1 hb
    exact ⟨rfl, rfl⟩

/-- C8 witness: the one-record Snake catalog yields the two buttons. -/
theorem one_button_per_distinct_tag_witness :
    ∃ bs, populateTagFilters [snakeRecord] = some bs ∧
      (bs.map FilterButton.label).Nodup ∧
      (∀ t, t ∈ bs.map FilterButton.label ↔
        ∃ g ∈ [snakeRecord], ∃ l, g.tags = some l ∧ t ∈ l) ∧
      ∀ b ∈ bs, b.key = b.label.toLower ∧ b.active = false :=
  one_button_per_distinct_tag [snakeRecord] (by decide)

/-- C1 counterexample: in the two-record catalog `[gAll, gX]` the tag
"All" appears (on `gAll`), yet activating its filter — whose click key is
the lower-cased tag — returns the whole catalog instead of the one-record
subset of records carrying that tag, refuting the claim for the tag whose
lower-cased form is "all". -/
theorem tagFilter_exact_subset_cex :
    gAll ∈ cexCatalog ∧ gAll.tags = some ["All"] ∧
    computeSubset cexCatalog ("All".toLower) ≠
      some (cexCatalog.filter fun g =>
        ((g.tags.getD []).map String.toLower).contains ("All".toLower)) := by
  refine ⟨by decide, rfl, ?_⟩
  simp only [toLower_fun]
  decide

/-- C1 (amended): for every catalog in which every record has a `tags`
sequence and every tag `t` appearing in it whose lower-cased form is not
the reserved key "all", activating the filter for `t` computes exactly the
order-preserving subset of records whose lower-cased tags contain the
lower-cased `t`; the "all" key returns the full catalog unchanged; and the
rendered result of a recognized activation is recomputed from the catalog
and the clicked key alone, independent of the previously displayed
contents. -/
theorem tagFilter_exact_subset (catalog : List GameRecord) (t : String)
    (hall : ∀ g ∈ catalog, g.tags ≠ none)
    (happ : ∃ g ∈ catalog, ∃ l, g.tags = some l ∧ t ∈ l)
    (hne : t.toLower ≠ "all") :
    computeSubset catalog t.toLower =
      some (catalog.filter fun g =>
        ((g.tags.getD []).map String.toLower).contains (t.toLower)) ∧
    computeSubset catalog "all" = some catalog ∧
    ∀ (s : AppState) (i : Nat) (btn : FilterButton) (subset : List GameRecord),
      s.filterButtons.get? i = some btn →
      computeSubset s.allGamesData btn.key = some subset →
      (handleTagFilterClick s (ClickTarget.filterButton i)).gameList =
        renderGameList subset [] := by
  refine ⟨?_, by simp [computeSubset], ?_⟩
  · rw [computeSubset, if_neg hne]
    exact filterGames_eq_filter hall (t.toLower)
  · intro s i btn subset hbtn hcs
    rw [List.get?_eq_getElem?] at hbtn
    simp [handleTagFilterClick, hbtn, hcs, renderGameList]

/-- C1 witness: the one-record Snake catalog with the tag "arcade". -/
theorem tagFilter_exact_subset_witness :
    computeSubset [snakeRecord] ("arcade".toLower) =
      some ([snakeRecord].filter fun g =>
        ((g.tags.getD []).map String.toLower).contains ("arcade".toLower)) ∧
    computeSubset [snakeRecord] "all" = some [snakeRecord] :=
  ⟨(tagFilter_exact_subset [snakeRecord] "arcade" (by decide)
      ⟨snakeRecord, by decide, ["arcade", "classic"], rfl, by decide⟩
      (by rw [toLower_fun]; decide)).1,
   (tagFilter_exact_subset [snakeRecord] "arcade" (by decide)
      ⟨snakeRecord, by decide, ["arcade", "classic"], rfl, by decide⟩
      (by rw [toLower_fun]; decide)).2.1⟩

/-- C10: a real tag whose lower-cased form is "all" is shadowed by the
all-games pseudo-key: on a catalog carrying such a tag (every record having
a `tags` sequence), the setup creates a control keyed "all", and activating
that key returns the entire catalog — which, as soon as one record does not
carry the tag, differs from the subset of records carrying it. -/
theorem all_pseudo_key_shadows_all_tag
    (catalog : List GameRecord) (g g2 : GameRecord) (t : String)
    (hall : ∀ x ∈ catalog, x.tags ≠ none)
    (hg : g ∈ catalog) (hts : ∃ l, g.tags = some l ∧ t ∈ l)
    (hlow : t.toLower = "all")
    (hg2 : g2 ∈ catalog)
    (hg2n : ((g2.tags.getD []).map String.toLower).contains "all" = false) :
    (∃ bs, populateTagFilters catalog = some bs ∧ ∃ b ∈ bs, b.key = "all") ∧
    computeSubset catalog "all" = some catalog ∧
    computeSubset catalog "all" ≠
      some (catalog.filter fun x =>
        ((x.tags.getD []).map String.toLower).contains "all") := by
  obtain ⟨ts, hcoll, hmem⟩ := collectTags_eq_some hall
  obtain ⟨l, hl, htl⟩ := hts
  refine ⟨?_, by simp [computeSubset], ?_⟩
  · refine ⟨(ts.foldl insertUnique []).map
      (fun tag => ⟨tag, tag.toLower, false⟩), ?_, ?_⟩
    · simp [populateTagFilters, hcoll]
    · have htin : t ∈ ts.foldl insertUnique [] := by
        rw [mem_foldl_insertUnique]
        exact Or.inr ((hmem t).2 ⟨g, hg, l, hl, htl⟩)
      exact ⟨⟨t, t.toLower, false⟩, List.mem_map_of_mem _ htin, hlow⟩
  · rw [computeSubset, if_pos rfl]
    intro heq
    have hceq : catalog = catalog.filter (fun x =>
        ((x.tags.getD []).map String.toLower).contains "all") :=
      Option.some.injEq _ _ ▸ (by simpa using heq)
    have : g2 ∈ catalog.filter (fun x =>
        ((x.tags.getD []).map String.toLower).contains "all") := by
      rw [← hceq]; exact hg2
    rw [List.mem_filter, hg2n] at this
    exact Bool.false_ne_true this.2

/-- C10 witness: the catalog `[gAll, gX]` with the "All"-tagged record and
the "x"-tagged record. -/
theorem all_pseudo_key_shadows_all_tag_witness :
    (∃ bs, populateTagFilters cexCatalog = some bs ∧ ∃ b ∈ bs, b.key = "all") ∧
    computeSubset cexCatalog "all" = some cexCatalog ∧
    computeSubset cexCatalog "all" ≠
      some (cexCatalog.filter fun x =>
        ((x.tags.getD []).map String.toLower).contains "all") :=
  all_pseudo_key_shadows_all_tag cexCatalog gAll gX "All"
    (by decide) (by decide) ⟨["All"], rfl, by decide⟩
    (by rw [toLower_fun]; decide) (by decide)
    (by simp only [toLower_fun]; decide)

end GamePortal
